import Mathlib

/-!
Verification of the gossip-glomers node (`src/main.rs`) against its
natural-language specification.  The Rust program is shallowly embedded:
`HashMap` becomes an association list (`lookupA`/`setA`/`removeA`, operating
on the first occurrence of a key, as a `HashMap` with unique keys does),
`HashSet<usize>` becomes `Finset Nat`, and the single-threaded dispatcher
becomes the step function `step : NodeState → Evt → Option (NodeState × List
Msg)` returning the successor state and the messages written to stdout, with
`none` modelling a panic (`unwrap`/`expect`/explicit panic), which kills the
process.
-/

set_option maxRecDepth 4000

namespace GossipGlomers

/-- Association-list lookup; mirrors `HashMap::get` (first matching key). -/
def lookupA {α β : Type} [DecidableEq α] : List (α × β) → α → Option β
  | [], _ => none
  | (k, v) :: rest, a => if k = a then some v else lookupA rest a

/-- Association-list insert-or-replace; mirrors `HashMap::insert` /
`entry().or_insert` followed by assignment (replaces the first occurrence,
appends when absent). -/
def setA {α β : Type} [DecidableEq α] : List (α × β) → α → β → List (α × β)
  | [], a, b => [(a, b)]
  | (k, v) :: rest, a, b => if k = a then (a, b) :: rest else (k, v) :: setA rest a b

/-- Association-list removal; mirrors `HashMap::remove`. -/
def removeA {α β : Type} [DecidableEq α] : List (α × β) → α → List (α × β)
  | [], _ => []
  | (k, v) :: rest, a => if k = a then rest else (k, v) :: removeA rest a

/-- Sum of the values of a map; mirrors `cntrs.values().sum::<usize>()`. -/
def sumValues : List (String × Nat) → Nat
  | [] => 0
  | (_, v) :: rest => v + sumValues rest

/-- `type TxnOp = (char, usize, Option<usize>)` from the source. -/
abbrev TxnOp : Type := Char × Nat × Option Nat

/-- `struct WriteOp { key, value, timestamp }` from the source. -/
structure WriteOp where
  key : Nat
  value : Nat
  timestamp : Nat
deriving DecidableEq

/-- `Snapshot.data : HashMap<usize, (usize, usize)>`: key ↦ (value, timestamp). -/
abbrev SnapData : Type := List (Nat × (Nat × Nat))

/-- The payload union `enum Pl` from the source (one constructor per variant). -/
inductive Pl : Type where
  | Txn (txn : List TxnOp)
  | TxnOk (txn : List TxnOp)
  | FwdW (writes : List WriteOp)
  | Error (code : Nat) (text : String)
  | Init (node_id : String) (node_ids : List String)
  | InitOk
  | Echo (echo : String)
  | EchoOk (echo : String)
  | Generate
  | GenerateOk (id : String)
  | Broadcast (msg : Nat)
  | BroadcastOk
  | Read (key : Option String) (msg_id : Option Nat)
  | ReadOk (msgs : Option (Finset Nat)) (value : Option Nat)
  | Topology (topology : List (String × List String))
  | TopologyOk
  | Gossip (msgs : Finset Nat)
  | GossipOk (id : Nat)
  | GossipCntr (cntr : Nat)
  | Add (delta : Nat)
  | AddOk
  | Send (key : String) (msg : Nat)
  | SendMany (key : String) (msgs : List Nat)
  | SendOk (offset : Nat)
  | Poll (offsets : List (String × Nat))
  | PollOk (msgs : List (String × List (Nat × Nat)))
  | CommitOffsets (offsets : List (String × Nat))
  | CommitOffsetsOk
  | ListCommittedOffsets (keys : List String)
  | ListCommittedOffsetsOk (offsets : List (String × Nat))
deriving DecidableEq

/-- `struct Body { pl, msg_id, in_reply_to }` from the source. -/
structure Body where
  pl : Pl
  msg_id : Option Nat
  in_reply_to : Option Nat
deriving DecidableEq

/-- `struct Msg { src, dst, body }` from the source (`dst` serialises as `dest`). -/
structure Msg where
  src : String
  dst : String
  body : Body
deriving DecidableEq

/-- `Msg::into_resp(&mut id)` from the source: swap `src`/`dst`, allocate the
next `msg_id` from the counter (returned incremented), copy the request's
`msg_id` into `in_reply_to`, keep the payload. -/
def Msg.into_resp (m : Msg) (id : Nat) : Msg × Nat :=
  ({ src := m.dst
     dst := m.src
     body := { pl := m.body.pl, msg_id := some id, in_reply_to := m.body.msg_id } },
   id + 1)

/-- The internal timer tasks (`enum Task`). -/
inductive Task : Type where
  | CentralGossip
  | MeshGossip
  | GossipCntr
deriving DecidableEq

/-- Events fed to the dispatcher (`enum Evt`). -/
inductive Evt : Type where
  | Ext (msg : Msg)
  | Int (task : Task)
deriving DecidableEq

/-- The mutable node state owned by the dispatcher in `main` (the local
variables of `main`, with the source's names). -/
structure NodeState where
  id : String
  ids : List String
  msg_id : Nat
  txn_id : Nat
  cntr : Nat
  cntrs : List (String × Nat)
  messages : Finset Nat
  seen : List (String × Finset Nat)
  default_neighbourhood : List String
  central_neighbourhood : List String
  leader : String
  mesh_neighbourhood : List String
  pending : List (Nat × Finset Nat)
  logs : List (String × List Nat)
  committed_offsets : List (String × Nat)
  pending_writes : List WriteOp
  snapshot : SnapData
deriving DecidableEq

/-- The state at process start (`main`'s initialisers, before any event). -/
def init0 : NodeState :=
  { id := ""
    ids := []
    msg_id := 0
    txn_id := 0
    cntr := 0
    cntrs := []
    messages := ∅
    seen := []
    default_neighbourhood := []
    central_neighbourhood := []
    leader := ""
    mesh_neighbourhood := []
    pending := []
    logs := []
    committed_offsets := []
    pending_writes := []
    snapshot := [] }

/-- Replace the payload of a response before sending it (the source mutates
`resp.body.pl` in place). -/
def mkReply (r : Msg) (pl : Pl) : Msg :=
  { r with body := { r.body with pl := pl } }

/-- The g-counter read value: `cntrs.values().sum::<usize>() + cntr`
(the `read` handler under the `g-counter` feature). -/
def readValue (s : NodeState) : Nat :=
  sumValues s.cntrs + s.cntr

/-- One write merged into the snapshot: insert unless an entry with a
timestamp `≥` the write's is already present (the drain loop in the `Txn`
handler and the body of the `FwdW` handler, which are textually identical
in the source). -/
def applyWrite (snap : SnapData) (w : WriteOp) : SnapData :=
  match lookupA snap w.key with
  | some (_, snapts) =>
      if w.timestamp > snapts then setA snap w.key (w.value, w.timestamp) else snap
  | none => setA snap w.key (w.value, w.timestamp)

/-- The read/write loop of the `Txn` handler: reads evaluate against the
snapshot clone `trans_snap` and are pushed onto `trans_result`; writes are
pushed onto `pending_writes` with the transaction timestamp (and push nothing
onto `trans_result`); `none` models the panic on a malformed op. -/
def procOps (trans_snap : SnapData) (ts : Nat) :
    List TxnOp → Option (List TxnOp × List WriteOp)
  | [] => some ([], [])
  | op :: rest =>
    if op.1 = 'r' then
      (procOps trans_snap ts rest).map fun p =>
        (('r', op.2.1, (lookupA trans_snap op.2.1).map Prod.fst) :: p.1, p.2)
    else if op.1 = 'w' then
      match op.2.2 with
      | some wval =>
          (procOps trans_snap ts rest).map fun p =>
            (p.1, { key := op.2.1, value := wval, timestamp := ts } :: p.2)
      | none => none
    else none

/-- The `Pl::Txn` handler.  `s` already carries the bumped `msg_id` (the
response was allocated first); `resp` is the response envelope.  The
handler bumps `txn_id`, processes the ops against the snapshot clone,
drains `pending_writes` into `snapshot`, broadcasts `FwdW` with a clone of
the (now empty) `pending_writes` vector to each mesh neighbour, and finally
sends `txn_ok` with the collected read results. -/
def handleTxn (s : NodeState) (resp : Msg) (txn : List TxnOp) :
    Option (NodeState × List Msg) :=
  let txn_id := s.txn_id + 1
  let ts := txn_id
  let trans_snap := s.snapshot
  match procOps trans_snap ts txn with
  | none => none
  | some (trans_result, new_writes) =>
    let drained := s.pending_writes ++ new_writes
    let snapshot := drained.foldl applyWrite s.snapshot
    -- `pending_writes.drain(..)` leaves the vector empty
    let pending_writes : List WriteOp := []
    let fwd := s.mesh_neighbourhood.foldl
      (fun (acc : List Msg × Nat) dstid =>
        (acc.1 ++ [{ src := s.id
                     dst := dstid
                     body := { pl := Pl.FwdW pending_writes
                               msg_id := some acc.2
                               in_reply_to := none } }],
         acc.2 + 1))
      ([], s.msg_id)
    some ({ s with txn_id := txn_id
                   snapshot := snapshot
                   pending_writes := pending_writes
                   msg_id := fwd.2 },
          fwd.1 ++ [mkReply resp (Pl.TxnOk trans_result)])

/-- The `Pl::Init` handler: record identity, derive the central and mesh
neighbourhoods and the leader (`node_ids[0]`, `none` models the `unwrap` on
an empty list), reset `seen` and `cntrs`, reply `init_ok`, and send the
unsolicited `read {key: "my-test-key"}` probe to `lin-kv`. -/
def handleInit (s : NodeState) (resp : Msg) (node_id : String)
    (node_ids : List String) : Option (NodeState × List Msg) :=
  match node_ids.head? with
  | none => none
  | some central =>
    let id := node_id
    let ids := node_ids
    let central_neighbourhood :=
      if id = central then ids.filter (fun x => x ≠ central) else [central]
    let mesh_neighbourhood := ids.filter (fun x => x ≠ id)
    let seen := ids.foldl (fun m i => setA m i (∅ : Finset Nat)) []
    let cntrs := ids.foldl (fun m i => setA m i 0) []
    let probe : Msg :=
      { src := id
        dst := "lin-kv"
        body := { pl := Pl.Read (some "my-test-key") (some 1)
                  msg_id := none
                  in_reply_to := none } }
    some ({ s with id := id
                   ids := ids
                   central_neighbourhood := central_neighbourhood
                   leader := central
                   mesh_neighbourhood := mesh_neighbourhood
                   seen := seen
                   cntrs := cntrs },
          [mkReply resp Pl.InitOk, probe])

/-- One `entry().and_modify(max).or_insert()` step of the `CommitOffsets`
handler. -/
def commitOne (c : List (String × Nat)) (kv : String × Nat) : List (String × Nat) :=
  match lookupA c kv.1 with
  | some x => setA c kv.1 (max x kv.2)
  | none => setA c kv.1 kv.2

/-- The per-key loop of the `CommitOffsets` handler on the leader. -/
def applyCommit (c : List (String × Nat)) (offs : List (String × Nat)) :
    List (String × Nat) :=
  offs.foldl commitOne c

/-- The dispatcher's external-message branch: build the response envelope
with `into_resp` (which bumps `msg_id`), then dispatch on the payload.
The source matches on `resp.body.pl`, which `into_resp` copies unchanged
from `msg.body.pl`; we match on the latter, and `resp.dst` (the sender of
the request) is `msg.src`. -/
def handleExt (s0 : NodeState) (msg : Msg) : Option (NodeState × List Msg) :=
  let rp := msg.into_resp s0.msg_id
  let resp := rp.1
  let s := { s0 with msg_id := rp.2 }
  match msg.body.pl with
  | Pl.Txn txn => handleTxn s resp txn
  | Pl.TxnOk _ => some (s, [])
  | Pl.Error _ _ => some (s, [])
  | Pl.FwdW writes =>
      some ({ s with snapshot := writes.foldl applyWrite s.snapshot }, [])
  | Pl.Init node_id node_ids => handleInit s resp node_id node_ids
  | Pl.Echo echo => some (s, [mkReply resp (Pl.EchoOk echo)])
  | Pl.Generate =>
      -- `Uuid::now_v7()` is an external unique-id source (out of scope per
      -- spec §1); modelled as an opaque constant string.
      some (s, [mkReply resp (Pl.GenerateOk "uuid")])
  | Pl.Topology topology =>
      match lookupA topology s.id with
      | none => none
      | some nb =>
          some ({ s with default_neighbourhood := nb }, [mkReply resp Pl.TopologyOk])
  | Pl.Broadcast m =>
      some ({ s with messages := insert m s.messages }, [mkReply resp Pl.BroadcastOk])
  | Pl.Gossip msgs =>
      match lookupA s.seen resp.dst, resp.body.in_reply_to with
      | some sn, some irt =>
          some ({ s with messages := s.messages ∪ msgs
                         seen := setA s.seen resp.dst (sn ∪ msgs) },
                [mkReply resp (Pl.GossipOk irt)])
      | _, _ => none
  | Pl.GossipCntr c =>
      some ({ s with cntrs := setA s.cntrs resp.dst c }, [])
  | Pl.GossipOk gid =>
      match lookupA s.pending gid with
      | some pl =>
          match lookupA s.seen resp.dst with
          | some sn =>
              some ({ s with pending := removeA s.pending gid
                             seen := setA s.seen resp.dst (sn ∪ pl) }, [])
          | none => none
      | none => some (s, [])
  | Pl.Read key mid =>
      if key.isSome ∨ mid.isSome then none
      else
        some (s, [mkReply resp (Pl.ReadOk
          (if s.messages = ∅ then none else some s.messages)
          (some (readValue s)))])
  | Pl.Add delta =>
      some ({ s with cntr := s.cntr + delta }, [mkReply resp Pl.AddOk])
  | Pl.Send key m =>
      if s.id = s.leader then
        let msgs0 := (lookupA s.logs key).getD []
        let msgs := if m ∈ msgs0 then msgs0 else msgs0 ++ [m]
        let fanout := s.central_neighbourhood.map (fun x =>
          { src := s.id
            dst := x
            body := { pl := Pl.SendMany key msgs, msg_id := none, in_reply_to := none } })
        some ({ s with logs := setA s.logs key msgs },
              mkReply resp (Pl.SendOk (msgs.length - 1)) :: fanout)
      else
        some (s, [{ resp with
                      dst := s.leader
                      body := { resp.body with pl := Pl.Send key m } }])
  | Pl.SendMany key msgs =>
      match lookupA s.logs key with
      | some v =>
          if v.length > msgs.length then some (s, [])
          else some ({ s with logs := setA s.logs key msgs }, [])
      | none => some ({ s with logs := setA s.logs key msgs }, [])
  | Pl.Poll offsets =>
      some (s, [mkReply resp (Pl.PollOk (offsets.filterMap (fun ko =>
        (lookupA s.logs ko.1).map (fun msgs =>
          (ko.1, msgs.enum.filter (fun im => im.1 ≥ ko.2))))))])
  | Pl.CommitOffsets offsets =>
      if s.id = s.leader then
        let fanout := s.central_neighbourhood.map (fun x =>
          { src := s.id
            dst := x
            body := { pl := Pl.CommitOffsets offsets, msg_id := none, in_reply_to := none } })
        some ({ s with committed_offsets := applyCommit s.committed_offsets offsets },
              mkReply resp Pl.CommitOffsetsOk :: fanout)
      else
        some (s, [{ resp with
                      dst := s.leader
                      body := { resp.body with pl := Pl.CommitOffsets offsets } }])
  | Pl.ListCommittedOffsets keys =>
      some (s, [mkReply resp (Pl.ListCommittedOffsetsOk
        (keys.filterMap (fun x => (lookupA s.committed_offsets x).map (fun o => (x, o)))))])
  | Pl.AddOk => some (s, [])
  | Pl.InitOk => some (s, [])
  | Pl.EchoOk _ => some (s, [])
  | Pl.GenerateOk _ => some (s, [])
  | Pl.BroadcastOk => some (s, [])
  | Pl.ReadOk _ _ => some (s, [])
  | Pl.TopologyOk => some (s, [])
  | Pl.SendOk _ => some (s, [])
  | Pl.PollOk _ => some (s, [])
  | Pl.CommitOffsetsOk => some (s, [])
  | Pl.ListCommittedOffsetsOk _ => some (s, [])

/-- The body of the `Task::CentralGossip` / `Task::MeshGossip` loops (they
are textually identical in the source, differing only in the neighbour list
iterated): per neighbour, compute `messages \ seen[host]` (the indexing
panics — `none` — when the host is missing from `seen`); when non-empty,
send `gossip` with the current `msg_id`, record the digest in `pending`
under that id, and bump `msg_id`. -/
def gossipTick (s : NodeState) : List String → Option (NodeState × List Msg)
  | [] => some (s, [])
  | host :: rest =>
    match lookupA s.seen host with
    | none => none
    | some sn =>
      let unseen := s.messages \ sn
      if unseen = ∅ then gossipTick s rest
      else
        let m : Msg :=
          { src := s.id
            dst := host
            body := { pl := Pl.Gossip unseen, msg_id := some s.msg_id, in_reply_to := none } }
        match gossipTick { s with pending := setA s.pending s.msg_id unseen
                                  msg_id := s.msg_id + 1 } rest with
        | none => none
        | some (s', outs) => some (s', m :: outs)

/-- The `Task::GossipCntr` loop: fire-and-forget `gossip_cntr {cntr}` to each
mesh neighbour, each with a fresh `msg_id`. -/
def gossipCntrTick (s : NodeState) : NodeState × List Msg :=
  let r := s.mesh_neighbourhood.foldl
    (fun (acc : List Msg × Nat) node =>
      (acc.1 ++ [{ src := s.id
                   dst := node
                   body := { pl := Pl.GossipCntr s.cntr
                             msg_id := some acc.2
                             in_reply_to := none } }],
       acc.2 + 1))
    ([], s.msg_id)
  ({ s with msg_id := r.2 }, r.1)

/-- One dispatcher step: handle one event, producing the successor state and
the stdout messages, or `none` if the process panics. -/
def step (s : NodeState) : Evt → Option (NodeState × List Msg)
  | Evt.Ext msg => handleExt s msg
  | Evt.Int Task.CentralGossip => gossipTick s s.central_neighbourhood
  | Evt.Int Task.MeshGossip => gossipTick s s.mesh_neighbourhood
  | Evt.Int Task.GossipCntr => some (gossipCntrTick s)

/-- Run the dispatcher over a list of events, concatenating the stdout
output in order. -/
def run (s : NodeState) : List Evt → Option (NodeState × List Msg)
  | [] => some (s, [])
  | e :: rest =>
    match step s e with
    | none => none
    | some (s', outs) => (run s' rest).map fun p => (p.1, outs ++ p.2)

/-! ### Derived definitions used by the statements -/

/-- The per-peer invariant of the broadcast engine: every `seen` entry is a
subset of the node's own message set. -/
def SeenSub (s : NodeState) : Prop :=
  ∀ p fs, (p, fs) ∈ s.seen → fs ⊆ s.messages

/-- The auxiliary invariant: every outstanding `pending` digest is a subset
of the node's own message set. -/
def PendSub (s : NodeState) : Prop :=
  ∀ i d, (i, d) ∈ s.pending → d ⊆ s.messages

/-- The gossip digest for peer `p`: `messages \ seen[p]`. -/
def digest (s : NodeState) (p : String) : Finset Nat :=
  s.messages \ (lookupA s.seen p).getD ∅

/-- Well-formed transaction ops: each op is a read, or a write carrying a
value (exactly the ops on which the `Txn` handler does not panic). -/
def WfOps (ops : List TxnOp) : Prop :=
  ∀ op ∈ ops, op.1 = 'r' ∨ (op.1 = 'w' ∧ op.2.2 ≠ none)

/-- Closed form of the `txn_ok` result the handler produces: one triple per
read op, whose value is looked up in the snapshot as it was at the start of
the transaction; write ops contribute nothing. -/
def readsOf (snap : SnapData) (ops : List TxnOp) : List TxnOp :=
  ops.filterMap fun op =>
    if op.1 = 'r' then some ('r', op.2.1, (lookupA snap op.2.1).map Prod.fst)
    else none

/-! ### Concrete inputs for counterexamples and witnesses -/

/-- Scenario 1's first input line: `init` from `c0` declaring the single
node `n0`, with `msg_id` 1. -/
def c2_init : Msg :=
  { src := "c0", dst := "n0",
    body := { pl := Pl.Init "n0" ["n0"], msg_id := some 1, in_reply_to := none } }

/-- Scenario 1's second input line: `echo "hi"` from `c1` with `msg_id` 2. -/
def c2_echo : Msg :=
  { src := "c1", dst := "n0",
    body := { pl := Pl.Echo "hi", msg_id := some 2, in_reply_to := none } }

/-- The two-message input sequence of scenario 1. -/
def c2_events : List Evt := [Evt.Ext c2_init, Evt.Ext c2_echo]

/-- The node state after scenario 1 (identity recorded, two `msg_id`s
allocated). -/
def c2_state : NodeState :=
  { init0 with
      id := "n0"
      ids := ["n0"]
      msg_id := 2
      leader := "n0"
      seen := [("n0", (∅ : Finset Nat))]
      cntrs := [("n0", 0)] }

/-- The unsolicited probe the `init` handler sends to `lin-kv`. -/
def linkv_probe : Msg :=
  { src := "n0", dst := "lin-kv",
    body := { pl := Pl.Read (some "my-test-key") (some 1), msg_id := none,
              in_reply_to := none } }

/-- The three messages the node writes to stdout on scenario 1's input. -/
def c2_outs : List Msg :=
  [{ src := "n0", dst := "c0",
     body := { pl := Pl.InitOk, msg_id := some 0, in_reply_to := some 1 } },
   linkv_probe,
   { src := "n0", dst := "c1",
     body := { pl := Pl.EchoOk "hi", msg_id := some 1, in_reply_to := some 2 } }]

/-- A `send {key := "k", msg := v}` request from client `c2`. -/
def send_req (mid v : Nat) : Msg :=
  { src := "c2", dst := "n0",
    body := { pl := Pl.Send "k" v, msg_id := some mid, in_reply_to := none } }

/-- C3's input: init, send 100, send 200, then replay send 100. -/
def c3_events : List Evt :=
  [Evt.Ext c2_init, Evt.Ext (send_req 2 100), Evt.Ext (send_req 3 200),
   Evt.Ext (send_req 4 100)]

/-- A single-node leader state used as a witness input. -/
def leader_state : NodeState :=
  { init0 with
      id := "n0"
      ids := ["n0"]
      msg_id := 2
      leader := "n0"
      seen := [("n0", (∅ : Finset Nat))]
      cntrs := [("n0", 0)] }

/-- An `init` declaring the two-node cluster `[n0, n1]`. -/
def init2_msg : Msg :=
  { src := "c0", dst := "n0",
    body := { pl := Pl.Init "n0" ["n0", "n1"], msg_id := some 1, in_reply_to := none } }

/-- A `gossip_cntr {cntr := v}` from peer `src` with `msg_id` `mid`. -/
def gcntr_msg (src : String) (mid v : Nat) : Msg :=
  { src := src, dst := "n0",
    body := { pl := Pl.GossipCntr v, msg_id := some mid, in_reply_to := none } }

/-- C5's prefix: init `[n0, n1]`, then peer `n1` gossips counter value 5. -/
def c5_events : List Evt := [Evt.Ext init2_msg, Evt.Ext (gcntr_msg "n1" 1 5)]

/-- C7's input: init, then a transaction writing `1 ↦ 10` and immediately
reading key 1. -/
def c7_events : List Evt :=
  [Evt.Ext c2_init,
   Evt.Ext { src := "c3", dst := "n0",
             body := { pl := Pl.Txn [('w', 1, some 10), ('r', 1, none)],
                       msg_id := some 2, in_reply_to := none } }]

/-- C9's second `init`, arriving after the node is already initialised. -/
def c9_init2 : Msg :=
  { src := "c5", dst := "n0",
    body := { pl := Pl.Init "n0" ["n0"], msg_id := some 9, in_reply_to := none } }

/-- A leader state that already has committed offset 1 for key `"logs"`. -/
def c6_state : NodeState :=
  { leader_state with committed_offsets := [("logs", 1)] }

/-- A `commit_offsets {offsets := {logs := 0}}` request. -/
def c6_commit_msg : Msg :=
  { src := "c4", dst := "n0",
    body := { pl := Pl.CommitOffsets [("logs", 0)], msg_id := some 3,
              in_reply_to := none } }

/-- The ops of the witness transaction: write `1 ↦ 10`, then read key 1. -/
def c10_ops : List TxnOp := [('w', 1, some 10), ('r', 1, none)]

/-- A two-node state (mesh neighbourhood `["n1"]`) used as witness input. -/
def mesh_state : NodeState :=
  { init0 with
      id := "n0"
      ids := ["n0", "n1"]
      msg_id := 2
      leader := "n0"
      central_neighbourhood := ["n1"]
      mesh_neighbourhood := ["n1"]
      seen := [("n0", (∅ : Finset Nat)), ("n1", (∅ : Finset Nat))]
      cntrs := [("n0", 0), ("n1", 0)] }

/-- A two-node state with a local contribution and a stored peer counter,
used as the C5 witness input. -/
def c5w_s : NodeState :=
  { mesh_state with cntr := 1, cntrs := [("n0", 0), ("n1", 2)] }

/-- The state after `c5w_s` handles `gossip_cntr {cntr := 7}` from `n1`. -/
def c5w_s2 : NodeState :=
  { c5w_s with msg_id := 3, cntrs := [("n0", 0), ("n1", 7)] }

/-- A two-node state holding message 7 not yet seen by `n1`; C8 witness
input. -/
def c8w_s : NodeState :=
  { mesh_state with messages := ({7} : Finset Nat) }

/-- The witness transaction request. -/
def c10_txn : Msg :=
  { src := "c3", dst := "n0",
    body := { pl := Pl.Txn c10_ops, msg_id := some 2, in_reply_to := none } }

/-- The state after `mesh_state` handles `c10_txn`. -/
def c10_s : NodeState :=
  { mesh_state with msg_id := 4, txn_id := 1, snapshot := [(1, (10, 1))] }

/-- The stdout output of `mesh_state` handling `c10_txn`: one `FwdW` with an
empty `writes` list to `n1`, then the `txn_ok` reply. -/
def c10_outs : List Msg :=
  [{ src := "n0", dst := "n1",
     body := { pl := Pl.FwdW [], msg_id := some 3, in_reply_to := none } },
   { src := "n0", dst := "c3",
     body := { pl := Pl.TxnOk [('r', 1, none)], msg_id := some 2,
               in_reply_to := some 2 } }]

/-! ### Association-list lemmas -/

theorem lookupA_setA_self {α β : Type} [DecidableEq α] (l : List (α × β)) (k : α) (v : β) :
    lookupA (setA l k v) k = some v := by
  induction l with
  | nil => simp [setA, lookupA]
  | cons hd tl ih =>
    by_cases h : hd.1 = k <;> simp [setA, lookupA, h, ih]

theorem lookupA_setA_ne {α β : Type} [DecidableEq α] (l : List (α × β)) (k k' : α) (v : β)
    (h : k ≠ k') : lookupA (setA l k v) k' = lookupA l k' := by
  induction l with
  | nil => simp [setA, lookupA, h]
  | cons hd tl ih =>
    by_cases hh : hd.1 = k
    · simp [setA, lookupA, hh, h]
    · simp only [setA, hh, if_false]
      by_cases hk : hd.1 = k' <;> simp [lookupA, hk, ih]

theorem mem_setA {α β : Type} [DecidableEq α] {l : List (α × β)} {k : α} {v : β}
    {x : α × β} (h : x ∈ setA l k v) : x ∈ l ∨ x = (k, v) := by
  induction l with
  | nil =>
    simp only [setA, List.mem_singleton] at h
    exact Or.inr h
  | cons hd tl ih =>
    by_cases hh : hd.1 = k
    · simp only [setA, hh, if_true, List.mem_cons] at h
      rcases h with h | h
      · exact Or.inr h
      · exact Or.inl (List.mem_cons_of_mem _ h)
    · simp only [setA, hh, if_false, List.mem_cons] at h
      rcases h with h | h
      · exact Or.inl (List.mem_cons.2 (Or.inl h))
      · rcases ih h with h' | h'
        · exact Or.inl (List.mem_cons_of_mem _ h')
        · exact Or.inr h'

theorem mem_setA_self {α β : Type} [DecidableEq α] (l : List (α × β)) (k : α) (v : β) :
    (k, v) ∈ setA l k v := by
  induction l with
  | nil => simp [setA]
  | cons hd tl ih =>
    by_cases hh : hd.1 = k <;> simp [setA, hh, ih]

theorem mem_setA_of_ne {α β : Type} [DecidableEq α] {l : List (α × β)} {k : α} {v : β}
    {x : α × β} (h : x ∈ l) (hne : x.1 ≠ k) : x ∈ setA l k v := by
  induction l with
  | nil => simp at h
  | cons hd tl ih =>
    by_cases hh : hd.1 = k
    · simp only [setA, hh, if_true, List.mem_cons]
      rcases List.mem_cons.1 h with h' | h'
      · exact absurd (h' ▸ hh) hne
      · right; exact h'
    · simp only [setA, hh, if_false, List.mem_cons]
      rcases List.mem_cons.1 h with h' | h'
      · left; exact h'
      · right; exact ih h'

theorem mem_removeA {α β : Type} [DecidableEq α] {l : List (α × β)} {k : α}
    {x : α × β} (h : x ∈ removeA l k) : x ∈ l := by
  induction l with
  | nil => simp [removeA] at h
  | cons hd tl ih =>
    by_cases hh : hd.1 = k
    · simp only [removeA, hh, if_true] at h
      exact List.mem_cons_of_mem _ h
    · simp only [removeA, hh, if_false, List.mem_cons] at h
      rcases h with h | h
      · simp [h]
      · exact List.mem_cons_of_mem _ (ih h)

theorem lookupA_mem {α β : Type} [DecidableEq α] {l : List (α × β)} {k : α} {v : β}
    (h : lookupA l k = some v) : (k, v) ∈ l := by
  induction l with
  | nil => simp [lookupA] at h
  | cons hd tl ih =>
    by_cases hh : hd.1 = k
    · simp only [lookupA, hh, if_true, Option.some.injEq] at h
      subst h
      rw [← hh]
      simp
    · simp only [lookupA, hh, if_false] at h
      exact List.mem_cons_of_mem _ (ih h)

theorem sumValues_setA (l : List (String × Nat)) (k : String) (v : Nat) :
    sumValues (setA l k v) + (lookupA l k).getD 0 = sumValues l + v := by
  induction l with
  | nil => simp [setA, lookupA, sumValues]
  | cons hd tl ih =>
    by_cases hh : hd.1 = k
    · simp only [setA, lookupA, hh, if_true]
      show v + sumValues tl + hd.2 = hd.2 + sumValues tl + v
      omega
    · simp only [setA, lookupA, hh, if_false]
      show hd.2 + sumValues (setA tl k v) + (lookupA tl k).getD 0
        = hd.2 + sumValues tl + v
      have := ih
      omega

/-! ### C1 -/

/-- C1: for every request with `msg_id = m` that the node answers, the reply
produced by the respond-to operation `into_resp` (through which every reply
in `handleExt` is constructed) has `in_reply_to = m`, its `src` equal to the
request's `dest`, its `dest` equal to the request's `src`, and its own
`msg_id` freshly allocated from the node's monotone counter (the counter
value, with the counter returned incremented). -/
theorem C1_into_resp_reply (msg : Msg) (ctr m : Nat)
    (h : msg.body.msg_id = some m) :
    (msg.into_resp ctr).1.body.in_reply_to = some m ∧
    (msg.into_resp ctr).1.src = msg.dst ∧
    (msg.into_resp ctr).1.dst = msg.src ∧
    (msg.into_resp ctr).1.body.msg_id = some ctr ∧
    (msg.into_resp ctr).2 = ctr + 1 := by
  simp [Msg.into_resp, h]

/-- C1 witness: the property evaluated on scenario 1's `echo` request at
counter value 1. -/
theorem C1_witness :
    c2_echo.body.msg_id = some 2 ∧
    ((c2_echo.into_resp 1).1.body.in_reply_to = some 2 ∧
     (c2_echo.into_resp 1).1.src = c2_echo.dst ∧
     (c2_echo.into_resp 1).1.dst = c2_echo.src ∧
     (c2_echo.into_resp 1).1.body.msg_id = some 1 ∧
     (c2_echo.into_resp 1).2 = 1 + 1) :=
  ⟨rfl, C1_into_resp_reply c2_echo 1 2 rfl⟩

/-! ### C2 -/

/-- C2 counterexample: on scenario 1's two-message input the node emits
three messages, not two — so the outputs are not exactly the `init_ok`
reply followed by the `echo_ok` reply with nothing in between. -/
theorem C2_counterexample :
    ((run init0 c2_events).map fun p => p.2.length) = some 3 ∧ (3 : Nat) ≠ 2 :=
  ⟨by decide, by decide⟩

/-- C2 as amended: on scenario 1's input the node's outputs are, in order,
exactly the `init_ok` reply to `c0` with `in_reply_to` 1, an unsolicited
`read {key := "my-test-key"}` probe to `lin-kv` sent by the `init` handler,
and the `echo_ok` reply to `c1` with echo `"hi"` and `in_reply_to` 2. -/
theorem C2_amended_outputs :
    run init0 c2_events = some
      (c2_state,
       [{ src := "n0", dst := "c0",
          body := { pl := Pl.InitOk, msg_id := some 0, in_reply_to := some 1 } },
        linkv_probe,
        { src := "n0", dst := "c1",
          body := { pl := Pl.EchoOk "hi", msg_id := some 1, in_reply_to := some 2 } }]) := by
  decide

/-! ### C3 -/

/-- C3 counterexample: on the leader, `send k 100`, `send k 200`, then the
replayed `send k 100` answer offsets 0, 1 and 1 — the replay does not
return the first send's offset 0 once another value was appended in
between. -/
theorem C3_counterexample :
    ((run init0 c3_events).map fun p => p.2.map (fun m => m.body.pl)) =
      some [Pl.InitOk, Pl.Read (some "my-test-key") (some 1),
            Pl.SendOk 0, Pl.SendOk 1, Pl.SendOk 1] ∧
    (1 : Nat) ≠ 0 :=
  ⟨by decide, by decide⟩

/-- C3 as amended: on the leader a replayed `send {key, msg}` leaves the log
unchanged and answers `send_ok` with offset `len(logs[key]) − 1`; this
equals the first send's offset only when no other value was appended in
between — in particular, an immediately replayed send (two consecutive
identical sends) returns the same offset. -/
theorem setA_setA_same {α β : Type} [DecidableEq α] (l : List (α × β)) (k : α) (v : β) :
    setA (setA l k v) k v = setA l k v := by
  induction l with
  | nil => simp [setA]
  | cons hd tl ih =>
    by_cases hh : hd.1 = k <;> simp [setA, hh, ih]

theorem step_send_leader (s : NodeState) (m : Msg) (key : String) (v : Nat) (L : List Nat)
    (hld : s.id = s.leader) (h : m.body.pl = Pl.Send key v)
    (hL : L = (if v ∈ (lookupA s.logs key).getD [] then (lookupA s.logs key).getD []
               else (lookupA s.logs key).getD [] ++ [v])) :
    step s (Evt.Ext m) = some
      ({ s with msg_id := s.msg_id + 1, logs := setA s.logs key L },
       mkReply { src := m.dst, dst := m.src,
                 body := { pl := Pl.Send key v, msg_id := some s.msg_id,
                           in_reply_to := m.body.msg_id } } (Pl.SendOk (L.length - 1)) ::
       s.central_neighbourhood.map (fun x =>
         { src := s.id, dst := x,
           body := { pl := Pl.SendMany key L, msg_id := none, in_reply_to := none } })) := by
  subst hL
  simp only [step, handleExt, Msg.into_resp, h]
  rw [if_pos hld]

theorem C3_amended_replay (s : NodeState) (m1 m2 : Msg) (key : String) (v : Nat)
    (hld : s.id = s.leader)
    (h1 : m1.body.pl = Pl.Send key v) (h2 : m2.body.pl = Pl.Send key v) :
    ∃ s1 outs1 s2 outs2 o r1 rest1 r2 rest2,
      step s (Evt.Ext m1) = some (s1, outs1) ∧
      step s1 (Evt.Ext m2) = some (s2, outs2) ∧
      outs1 = r1 :: rest1 ∧ outs2 = r2 :: rest2 ∧
      r1.body.pl = Pl.SendOk o ∧ r2.body.pl = Pl.SendOk o ∧
      s2.logs = s1.logs := by
  set L1 := (if v ∈ (lookupA s.logs key).getD [] then (lookupA s.logs key).getD []
             else (lookupA s.logs key).getD [] ++ [v]) with hL1
  have hv : v ∈ L1 := by
    by_cases hvm : v ∈ (lookupA s.logs key).getD [] <;> simp [hL1, hvm]
  have e1 := step_send_leader s m1 key v L1 hld h1 hL1
  have e2 := step_send_leader
    ({ s with msg_id := s.msg_id + 1, logs := setA s.logs key L1 }) m2 key v L1 hld h2 (by
      simp only [lookupA_setA_self, Option.getD_some, if_pos hv])
  rw [setA_setA_same] at e2
  exact ⟨_, _, _, _, L1.length - 1, _, _, _, _, e1, e2, rfl, rfl, rfl, rfl, rfl⟩

/-- C3 witness: the amended property evaluated on a single-node leader with
two consecutive `send {"k", 100}` requests. -/
theorem C3_witness :
    leader_state.id = leader_state.leader ∧
    (∃ s1 outs1 s2 outs2 o r1 rest1 r2 rest2,
      step leader_state (Evt.Ext (send_req 2 100)) = some (s1, outs1) ∧
      step s1 (Evt.Ext (send_req 3 100)) = some (s2, outs2) ∧
      outs1 = r1 :: rest1 ∧ outs2 = r2 :: rest2 ∧
      r1.body.pl = Pl.SendOk o ∧ r2.body.pl = Pl.SendOk o ∧
      s2.logs = s1.logs) :=
  ⟨rfl, C3_amended_replay leader_state (send_req 2 100) (send_req 3 100) "k" 100
      rfl rfl rfl⟩

/-! ### C6 -/

theorem lookupA_commitOne_ne (c : List (String × Nat)) (p : String × Nat) (k : String)
    (h : p.1 ≠ k) : lookupA (commitOne c p) k = lookupA c k := by
  unfold commitOne
  cases hl : lookupA c p.1 <;> simp [lookupA_setA_ne _ _ _ _ h]

theorem lookupA_commitOne_self (c : List (String × Nat)) (p : String × Nat) :
    lookupA (commitOne c p) p.1 =
      some (match lookupA c p.1 with | some o => max o p.2 | none => p.2) := by
  unfold commitOne
  cases hl : lookupA c p.1 <;> simp [lookupA_setA_self]

theorem lookupA_applyCommit_notmem (offs : List (String × Nat))
    (c : List (String × Nat)) (k : String) (h : k ∉ offs.map Prod.fst) :
    lookupA (applyCommit c offs) k = lookupA c k := by
  induction offs generalizing c with
  | nil => rfl
  | cons hd tl ih =>
    simp only [List.map_cons, List.mem_cons, not_or] at h
    show lookupA (applyCommit (commitOne c hd) tl) k = lookupA c k
    rw [ih (commitOne c hd) h.2, lookupA_commitOne_ne _ _ _ (fun he => h.1 he.symm)]

theorem lookupA_applyCommit_mem (offs : List (String × Nat))
    (c : List (String × Nat)) (k : String) (v : Nat)
    (hnd : (offs.map Prod.fst).Nodup) (hm : (k, v) ∈ offs) :
    lookupA (applyCommit c offs) k =
      some (match lookupA c k with | some o => max o v | none => v) := by
  induction offs generalizing c with
  | nil => simp at hm
  | cons hd tl ih =>
    simp only [List.map_cons, List.nodup_cons] at hnd
    rcases List.mem_cons.1 hm with he | ht
    · subst he
      show lookupA (applyCommit (commitOne c (k, v)) tl) k = _
      rw [lookupA_applyCommit_notmem tl _ k hnd.1]
      exact lookupA_commitOne_self c (k, v)
    · have hk : hd.1 ≠ k := by
        intro he
        exact hnd.1 (he ▸ List.mem_map.2 ⟨(k, v), ht, rfl⟩)
      show lookupA (applyCommit (commitOne c hd) tl) k = _
      rw [ih (commitOne c hd) hnd.2 ht, lookupA_commitOne_ne _ _ _ hk]

theorem getD_commitOne_mono (c : List (String × Nat)) (p : String × Nat) (k : String) :
    (lookupA c k).getD 0 ≤ (lookupA (commitOne c p) k).getD 0 := by
  by_cases hk : p.1 = k
  · subst hk
    rw [lookupA_commitOne_self]
    cases hl : lookupA c p.1 with
    | none => simp
    | some o => simp [le_max_left]
  · rw [lookupA_commitOne_ne _ _ _ hk]

theorem getD_applyCommit_mono (offs : List (String × Nat))
    (c : List (String × Nat)) (k : String) :
    (lookupA c k).getD 0 ≤ (lookupA (applyCommit c offs) k).getD 0 := by
  induction offs generalizing c with
  | nil => exact le_refl _
  | cons hd tl ih =>
    exact le_trans (getD_commitOne_mono c hd k) (ih (commitOne c hd))

theorem step_commit_leader (s : NodeState) (m : Msg) (offs : List (String × Nat))
    (hld : s.id = s.leader) (h : m.body.pl = Pl.CommitOffsets offs) :
    step s (Evt.Ext m) = some
      ({ s with msg_id := s.msg_id + 1,
                committed_offsets := applyCommit s.committed_offsets offs },
       mkReply { src := m.dst, dst := m.src,
                 body := { pl := Pl.CommitOffsets offs, msg_id := some s.msg_id,
                           in_reply_to := m.body.msg_id } } Pl.CommitOffsetsOk ::
       s.central_neighbourhood.map (fun x =>
         { src := s.id, dst := x,
           body := { pl := Pl.CommitOffsets offs, msg_id := none,
                     in_reply_to := none } })) := by
  simp only [step, handleExt, Msg.into_resp, h]
  rw [if_pos hld]

/-- C6: on the leader, `commit_offsets {offsets}` updates `committed[k]` to
`max(old, new)` for every key in `offsets` (the new value when the key was
absent); consequently every key's committed offset is non-decreasing across
the step, and a commit carrying an offset `≤` the current one leaves
`committed[k]` unchanged. -/
theorem C6_commit_offsets (s : NodeState) (m : Msg) (offs : List (String × Nat))
    (hld : s.id = s.leader) (hpl : m.body.pl = Pl.CommitOffsets offs)
    (hnd : (offs.map Prod.fst).Nodup) :
    ∃ s' outs, step s (Evt.Ext m) = some (s', outs) ∧
      s'.committed_offsets = applyCommit s.committed_offsets offs ∧
      (∀ k v, (k, v) ∈ offs → lookupA s'.committed_offsets k =
        some (match lookupA s.committed_offsets k with
              | some o => max o v
              | none => v)) ∧
      (∀ k, (lookupA s.committed_offsets k).getD 0 ≤
            (lookupA s'.committed_offsets k).getD 0) ∧
      (∀ k v o, (k, v) ∈ offs → lookupA s.committed_offsets k = some o → v ≤ o →
        lookupA s'.committed_offsets k = some o) := by
  refine ⟨_, _, step_commit_leader s m offs hld hpl, rfl, ?_, ?_, ?_⟩
  · intro k v hkv
    exact lookupA_applyCommit_mem offs s.committed_offsets k v hnd hkv
  · intro k
    exact getD_applyCommit_mono offs s.committed_offsets k
  · intro k v o hkv ho hvo
    rw [lookupA_applyCommit_mem offs s.committed_offsets k v hnd hkv, ho]
    simp [max_eq_left hvo]

/-- C6 witness: the property evaluated on a leader with `committed = {logs:
1}` receiving `commit_offsets {logs: 0}` (which must leave the offset at 1). -/
theorem C6_witness :
    c6_state.id = c6_state.leader ∧
    c6_commit_msg.body.pl = Pl.CommitOffsets [("logs", 0)] ∧
    ([("logs", 0)].map Prod.fst).Nodup ∧
    (∃ s' outs, step c6_state (Evt.Ext c6_commit_msg) = some (s', outs) ∧
      s'.committed_offsets = applyCommit c6_state.committed_offsets [("logs", 0)] ∧
      (∀ k v, (k, v) ∈ [("logs", 0)] → lookupA s'.committed_offsets k =
        some (match lookupA c6_state.committed_offsets k with
              | some o => max o v
              | none => v)) ∧
      (∀ k, (lookupA c6_state.committed_offsets k).getD 0 ≤
            (lookupA s'.committed_offsets k).getD 0) ∧
      (∀ k v o, (k, v) ∈ [("logs", 0)] →
        lookupA c6_state.committed_offsets k = some o → v ≤ o →
        lookupA s'.committed_offsets k = some o)) :=
  ⟨rfl, rfl, by decide,
   C6_commit_offsets c6_state c6_commit_msg [("logs", 0)] rfl rfl (by decide)⟩

/-! ### C7 -/

theorem procOps_wf (snap : SnapData) (ts : Nat) (ops : List TxnOp) (h : WfOps ops) :
    ∃ ws, procOps snap ts ops = some (readsOf snap ops, ws) := by
  induction ops with
  | nil => exact ⟨[], rfl⟩
  | cons op rest ih =>
    have hop := h op (List.mem_cons_self op rest)
    have hrest : WfOps rest := fun o ho => h o (List.mem_cons_of_mem _ ho)
    obtain ⟨ws, hws⟩ := ih hrest
    rcases hop with hr | ⟨hw, hv⟩
    · exact ⟨ws, by simp [procOps, readsOf, hr, hws]⟩
    · cases hvv : op.2.2 with
      | none => exact absurd hvv hv
      | some wval =>
        have hnr : op.1 ≠ 'r' := by rw [hw]; decide
        exact ⟨{ key := op.2.1, value := wval, timestamp := ts } :: ws,
          by simp [procOps, readsOf, hw, hnr, hvv, hws]⟩

/-- C7 counterexample: a transaction writing `1 ↦ 10` then reading key 1
answers `txn_ok {txn := [(r, 1, null)]}` — the read does not see the
earlier write of the same transaction (and the write op is not echoed). -/
theorem C7_counterexample :
    ((run init0 c7_events).map fun p => p.2.map (fun m => m.body.pl)) =
      some [Pl.InitOk, Pl.Read (some "my-test-key") (some 1),
            Pl.TxnOk [('r', 1, none)]] ∧
    (none : Option Nat) ≠ some 10 :=
  ⟨by decide, by decide⟩

/-- C7 as amended: the `txn` handler applies the ops in list order against
the snapshot as it was at the start of the transaction: the `txn_ok` result
contains one triple per read, whose value is the key's snapshot value (null
when absent) — even when the same transaction wrote the key earlier, the
read does not observe that write — and write ops contribute no triple. -/
theorem C7_amended_txn (s : NodeState) (m : Msg) (ops : List TxnOp)
    (hpl : m.body.pl = Pl.Txn ops) (hwf : WfOps ops) :
    ∃ s' outs r, step s (Evt.Ext m) = some (s', outs) ∧
      outs.getLast? = some r ∧
      r.body.pl = Pl.TxnOk (readsOf s.snapshot ops) := by
  obtain ⟨ws, hws⟩ := procOps_wf s.snapshot (s.txn_id + 1) ops hwf
  simp only [step, handleExt, Msg.into_resp, hpl, handleTxn, hws]
  exact ⟨_, _, _, rfl, List.getLast?_concat _, rfl⟩

/-- C7 witness: the amended property evaluated on `mesh_state` with the
write-then-read transaction `c10_ops`. -/
theorem C7_witness :
    c10_txn.body.pl = Pl.Txn c10_ops ∧ WfOps c10_ops ∧
    (∃ s' outs r, step mesh_state (Evt.Ext c10_txn) = some (s', outs) ∧
      outs.getLast? = some r ∧
      r.body.pl = Pl.TxnOk (readsOf mesh_state.snapshot c10_ops)) :=
  ⟨rfl, by unfold WfOps; decide,
   C7_amended_txn mesh_state c10_txn c10_ops rfl (by unfold WfOps; decide)⟩

/-! ### C9 -/

/-- C9 counterexample: after a first `init`, a second `init` (msg_id 9 from
`c5`) is answered with another `init_ok` (and another `lin-kv` probe) — the
process re-initialises and keeps running instead of exiting. -/
theorem C9_counterexample :
    ((run init0 [Evt.Ext c2_init, Evt.Ext c9_init2]).map fun p =>
        p.2.map (fun mm => (mm.dst, mm.body.pl, mm.body.in_reply_to))) =
      some [("c0", Pl.InitOk, some 1),
            ("lin-kv", Pl.Read (some "my-test-key") (some 1), none),
            ("c5", Pl.InitOk, some 9),
            ("lin-kv", Pl.Read (some "my-test-key") (some 1), none)] := by
  decide

/-- C9 as amended: an `init` received in any state — in particular a second
`init` after the node is already initialised — is handled exactly like the
first: the node re-initialises identity, leader and neighbourhoods and
replies `init_ok` again (followed by the `lin-kv` probe); there is no
invariant check, fatal diagnostic or exit. -/
theorem C9_amended_reinit (s : NodeState) (m : Msg) (nid c : String)
    (nids : List String)
    (hpl : m.body.pl = Pl.Init nid nids) (hc : nids.head? = some c) :
    ∃ s', step s (Evt.Ext m) = some
        (s', [mkReply (m.into_resp s.msg_id).1 Pl.InitOk,
              { src := nid, dst := "lin-kv",
                body := { pl := Pl.Read (some "my-test-key") (some 1),
                          msg_id := none, in_reply_to := none } }]) ∧
      s'.id = nid ∧ s'.ids = nids ∧ s'.leader = c ∧
      s'.mesh_neighbourhood = nids.filter (fun x => x ≠ nid) ∧
      s'.central_neighbourhood =
        (if nid = c then nids.filter (fun x => x ≠ c) else [c]) := by
  simp only [step, handleExt, Msg.into_resp, hpl, handleInit, hc]
  exact ⟨_, rfl, rfl, rfl, rfl, rfl, rfl⟩

/-- C9 witness: the amended property evaluated on the already-initialised
state `c2_state` receiving the second `init` `c9_init2`. -/
theorem C9_witness :
    c9_init2.body.pl = Pl.Init "n0" ["n0"] ∧ ["n0"].head? = some "n0" ∧
    (∃ s', step c2_state (Evt.Ext c9_init2) = some
        (s', [mkReply (c9_init2.into_resp c2_state.msg_id).1 Pl.InitOk,
              { src := "n0", dst := "lin-kv",
                body := { pl := Pl.Read (some "my-test-key") (some 1),
                          msg_id := none, in_reply_to := none } }]) ∧
      s'.id = "n0" ∧ s'.ids = ["n0"] ∧ s'.leader = "n0" ∧
      s'.mesh_neighbourhood = ["n0"].filter (fun x => x ≠ "n0") ∧
      s'.central_neighbourhood =
        (if "n0" = "n0" then ["n0"].filter (fun x => x ≠ "n0") else ["n0"])) :=
  ⟨rfl, rfl, C9_amended_reinit c2_state c9_init2 "n0" "n0" ["n0"] rfl rfl⟩

/-! ### C10 -/

theorem fwd_fold_empty (nodes : List String) (sid : String) (acc : List Msg × Nat)
    (hacc : ∀ m ∈ acc.1, ∀ ws, m.body.pl = Pl.FwdW ws → ws = []) :
    ∀ m ∈ (nodes.foldl (fun (acc : List Msg × Nat) dstid =>
        (acc.1 ++ [{ src := sid, dst := dstid,
                     body := { pl := Pl.FwdW [], msg_id := some acc.2,
                               in_reply_to := none } }], acc.2 + 1)) acc).1,
      ∀ ws, m.body.pl = Pl.FwdW ws → ws = [] := by
  induction nodes generalizing acc with
  | nil => exact hacc
  | cons n rest ih =>
    refine ih _ ?_
    intro m hm ws hws
    rcases List.mem_append.1 hm with h | h
    · exact hacc m h ws hws
    · rw [List.mem_singleton] at h
      subst h
      simp only at hws
      injection hws with hws'
      exact hws'.symm

/-- C10: every `FwdW` message emitted while handling a `txn` carries an
empty `writes` list — `pending_writes` is fully drained into the snapshot
before the broadcast loop clones it, so locally applied writes are never
carried to any peer. -/
theorem C10_fwdw_empty (s : NodeState) (m : Msg) (ops : List TxnOp)
    (s' : NodeState) (outs : List Msg)
    (hpl : m.body.pl = Pl.Txn ops)
    (hstep : step s (Evt.Ext m) = some (s', outs)) :
    ∀ mm ∈ outs, ∀ ws, mm.body.pl = Pl.FwdW ws → ws = [] := by
  simp only [step, handleExt, Msg.into_resp, hpl, handleTxn] at hstep
  cases hpo : procOps s.snapshot (s.txn_id + 1) ops with
  | none => simp [hpo] at hstep
  | some pr =>
    simp only [hpo] at hstep
    obtain ⟨S, O, hSO⟩ : ∃ S O, some (S, O) = some (s', outs) := ⟨_, _, hstep⟩
    rw [Option.some.injEq, Prod.mk.injEq] at hstep
    obtain ⟨hS, hO⟩ := hstep
    subst hS
    subst hO
    intro mm hmm ws hws
    rcases List.mem_append.1 hmm with h | h
    · exact fwd_fold_empty s.mesh_neighbourhood s.id ([], s.msg_id + 1)
        (by intro m hm; simp at hm) mm h ws hws
    · rw [List.mem_singleton] at h
      subst h
      simp [mkReply] at hws

/-- C10 witness: the property evaluated on the two-node state handling the
write-then-read transaction; the emitted `FwdW` to `n1` carries `[]`. -/
theorem C10_witness :
    c10_txn.body.pl = Pl.Txn c10_ops ∧
    step mesh_state (Evt.Ext c10_txn) = some (c10_s, c10_outs) ∧
    (∀ mm ∈ c10_outs, ∀ ws, mm.body.pl = Pl.FwdW ws → ws = []) :=
  ⟨rfl, by decide,
   C10_fwdw_empty mesh_state c10_txn c10_ops c10_s c10_outs rfl (by decide)⟩

/-! ### C4 -/

theorem foldl_setA_entries (ids : List String) (acc : List (String × Finset Nat))
    (hacc : ∀ e ∈ acc, e.2 = ∅) :
    ∀ e ∈ ids.foldl (fun m i => setA m i (∅ : Finset Nat)) acc, e.2 = ∅ := by
  induction ids generalizing acc with
  | nil => exact hacc
  | cons i rest ih =>
    refine ih _ ?_
    intro e he
    rcases mem_setA he with h | h
    · exact hacc e h
    · rw [h]

theorem handleExt_subsets (s : NodeState) (msg : Msg) (s' : NodeState)
    (outs : List Msg) (hseen : SeenSub s) (hpend : PendSub s)
    (h : handleExt s msg = some (s', outs)) : SeenSub s' ∧ PendSub s' := by
  cases hpl : msg.body.pl with
  | Txn txn =>
    simp only [handleExt, Msg.into_resp, hpl, handleTxn] at h
    cases hpo : procOps s.snapshot (s.txn_id + 1) txn with
    | none => simp [hpo] at h
    | some pr =>
      simp only [hpo, Option.some.injEq, Prod.mk.injEq] at h
      obtain ⟨rfl, rfl⟩ := h
      exact ⟨hseen, hpend⟩
  | TxnOk txn =>
    simp only [handleExt, Msg.into_resp, hpl, Option.some.injEq, Prod.mk.injEq] at h
    obtain ⟨rfl, rfl⟩ := h
    exact ⟨hseen, hpend⟩
  | Error code text =>
    simp only [handleExt, Msg.into_resp, hpl, Option.some.injEq, Prod.mk.injEq] at h
    obtain ⟨rfl, rfl⟩ := h
    exact ⟨hseen, hpend⟩
  | FwdW writes =>
    simp only [handleExt, Msg.into_resp, hpl, Option.some.injEq, Prod.mk.injEq] at h
    obtain ⟨rfl, rfl⟩ := h
    exact ⟨hseen, hpend⟩
  | Init nid nids =>
    simp only [handleExt, Msg.into_resp, hpl, handleInit] at h
    cases hc : nids.head? with
    | none => simp [hc] at h
    | some c =>
      simp only [hc, Option.some.injEq, Prod.mk.injEq] at h
      obtain ⟨rfl, rfl⟩ := h
      constructor
      · intro p fs hm
        have hfs : fs = ∅ :=
          foldl_setA_entries nids [] (by intro e he; simp at he) (p, fs) hm
        rw [hfs]
        exact Finset.empty_subset _
      · intro i d hm
        exact hpend i d hm
  | Echo e =>
    simp only [handleExt, Msg.into_resp, hpl, Option.some.injEq, Prod.mk.injEq] at h
    obtain ⟨rfl, rfl⟩ := h
    exact ⟨hseen, hpend⟩
  | Generate =>
    simp only [handleExt, Msg.into_resp, hpl, Option.some.injEq, Prod.mk.injEq] at h
    obtain ⟨rfl, rfl⟩ := h
    exact ⟨hseen, hpend⟩
  | Topology topology =>
    simp only [handleExt, Msg.into_resp, hpl] at h
    cases hlk : lookupA topology s.id with
    | none => simp [hlk] at h
    | some nb =>
      simp only [hlk, Option.some.injEq, Prod.mk.injEq] at h
      obtain ⟨rfl, rfl⟩ := h
      exact ⟨hseen, hpend⟩
  | Broadcast m =>
    simp only [handleExt, Msg.into_resp, hpl, Option.some.injEq, Prod.mk.injEq] at h
    obtain ⟨rfl, rfl⟩ := h
    constructor
    · intro p fs hm
      exact (hseen p fs hm).trans (Finset.subset_insert _ _)
    · intro i d hm
      exact (hpend i d hm).trans (Finset.subset_insert _ _)
  | Gossip msgs =>
    simp only [handleExt, Msg.into_resp, hpl] at h
    cases hsn : lookupA s.seen msg.src with
    | none => simp [hsn] at h
    | some sn =>
      cases hirt : msg.body.msg_id with
      | none => simp [hsn, hirt] at h
      | some irt =>
        simp only [hsn, hirt, Option.some.injEq, Prod.mk.injEq] at h
        obtain ⟨rfl, rfl⟩ := h
        constructor
        · intro p fs hm
          rcases mem_setA hm with hold | hnew
          · exact (hseen p fs hold).trans Finset.subset_union_left
          · rw [Prod.mk.injEq] at hnew
            rw [hnew.2]
            exact Finset.union_subset_union
              (hseen _ _ (lookupA_mem hsn)) (Finset.Subset.refl _)
        · intro i d hm
          exact (hpend i d hm).trans Finset.subset_union_left
  | GossipOk gid =>
    simp only [handleExt, Msg.into_resp, hpl] at h
    cases hpd : lookupA s.pending gid with
    | none =>
      simp only [hpd, Option.some.injEq, Prod.mk.injEq] at h
      obtain ⟨rfl, rfl⟩ := h
      exact ⟨hseen, hpend⟩
    | some pl =>
      cases hsn : lookupA s.seen msg.src with
      | none => simp [hpd, hsn] at h
      | some sn =>
        simp only [hpd, hsn, Option.some.injEq, Prod.mk.injEq] at h
        obtain ⟨rfl, rfl⟩ := h
        constructor
        · intro p fs hm
          rcases mem_setA hm with hold | hnew
          · exact hseen p fs hold
          · rw [Prod.mk.injEq] at hnew
            rw [hnew.2]
            exact Finset.union_subset (hseen _ _ (lookupA_mem hsn))
              (hpend _ _ (lookupA_mem hpd))
        · intro i d hm
          exact hpend i d (mem_removeA hm)
  | GossipCntr c =>
    simp only [handleExt, Msg.into_resp, hpl, Option.some.injEq, Prod.mk.injEq] at h
    obtain ⟨rfl, rfl⟩ := h
    exact ⟨hseen, hpend⟩
  | Read key mid =>
    simp only [handleExt, Msg.into_resp, hpl] at h
    by_cases hk : key.isSome ∨ mid.isSome
    · simp [hk] at h
    · simp only [if_neg hk, Option.some.injEq, Prod.mk.injEq] at h
      obtain ⟨rfl, rfl⟩ := h
      exact ⟨hseen, hpend⟩
  | Add delta =>
    simp only [handleExt, Msg.into_resp, hpl, Option.some.injEq, Prod.mk.injEq] at h
    obtain ⟨rfl, rfl⟩ := h
    exact ⟨hseen, hpend⟩
  | Send key m =>
    simp only [handleExt, Msg.into_resp, hpl] at h
    by_cases hld : s.id = s.leader
    · rw [if_pos hld] at h
      rw [Option.some.injEq, Prod.mk.injEq] at h
      obtain ⟨rfl, rfl⟩ := h
      exact ⟨hseen, hpend⟩
    · rw [if_neg hld] at h
      rw [Option.some.injEq, Prod.mk.injEq] at h
      obtain ⟨rfl, rfl⟩ := h
      exact ⟨hseen, hpend⟩
  | SendMany key msgs =>
    simp only [handleExt, Msg.into_resp, hpl] at h
    cases hlk : lookupA s.logs key with
    | none =>
      simp only [hlk, Option.some.injEq, Prod.mk.injEq] at h
      obtain ⟨rfl, rfl⟩ := h
      exact ⟨hseen, hpend⟩
    | some v =>
      simp only [hlk] at h
      by_cases hlen : v.length > msgs.length
      · rw [if_pos hlen] at h
        rw [Option.some.injEq, Prod.mk.injEq] at h
        obtain ⟨rfl, rfl⟩ := h
        exact ⟨hseen, hpend⟩
      · rw [if_neg hlen] at h
        rw [Option.some.injEq, Prod.mk.injEq] at h
        obtain ⟨rfl, rfl⟩ := h
        exact ⟨hseen, hpend⟩
  | Poll offsets =>
    simp only [handleExt, Msg.into_resp, hpl, Option.some.injEq, Prod.mk.injEq] at h
    obtain ⟨rfl, rfl⟩ := h
    exact ⟨hseen, hpend⟩
  | CommitOffsets offsets =>
    simp only [handleExt, Msg.into_resp, hpl] at h
    by_cases hld : s.id = s.leader
    · rw [if_pos hld] at h
      rw [Option.some.injEq, Prod.mk.injEq] at h
      obtain ⟨rfl, rfl⟩ := h
      exact ⟨hseen, hpend⟩
    · rw [if_neg hld] at h
      rw [Option.some.injEq, Prod.mk.injEq] at h
      obtain ⟨rfl, rfl⟩ := h
      exact ⟨hseen, hpend⟩
  | ListCommittedOffsets keys =>
    simp only [handleExt, Msg.into_resp, hpl, Option.some.injEq, Prod.mk.injEq] at h
    obtain ⟨rfl, rfl⟩ := h
    exact ⟨hseen, hpend⟩
  | InitOk =>
    simp only [handleExt, Msg.into_resp, hpl, Option.some.injEq, Prod.mk.injEq] at h
    obtain ⟨rfl, rfl⟩ := h
    exact ⟨hseen, hpend⟩
  | EchoOk e =>
    simp only [handleExt, Msg.into_resp, hpl, Option.some.injEq, Prod.mk.injEq] at h
    obtain ⟨rfl, rfl⟩ := h
    exact ⟨hseen, hpend⟩
  | GenerateOk i =>
    simp only [handleExt, Msg.into_resp, hpl, Option.some.injEq, Prod.mk.injEq] at h
    obtain ⟨rfl, rfl⟩ := h
    exact ⟨hseen, hpend⟩
  | BroadcastOk =>
    simp only [handleExt, Msg.into_resp, hpl, Option.some.injEq, Prod.mk.injEq] at h
    obtain ⟨rfl, rfl⟩ := h
    exact ⟨hseen, hpend⟩
  | ReadOk ms v =>
    simp only [handleExt, Msg.into_resp, hpl, Option.some.injEq, Prod.mk.injEq] at h
    obtain ⟨rfl, rfl⟩ := h
    exact ⟨hseen, hpend⟩
  | TopologyOk =>
    simp only [handleExt, Msg.into_resp, hpl, Option.some.injEq, Prod.mk.injEq] at h
    obtain ⟨rfl, rfl⟩ := h
    exact ⟨hseen, hpend⟩
  | SendOk o =>
    simp only [handleExt, Msg.into_resp, hpl, Option.some.injEq, Prod.mk.injEq] at h
    obtain ⟨rfl, rfl⟩ := h
    exact ⟨hseen, hpend⟩
  | PollOk ms =>
    simp only [handleExt, Msg.into_resp, hpl, Option.some.injEq, Prod.mk.injEq] at h
    obtain ⟨rfl, rfl⟩ := h
    exact ⟨hseen, hpend⟩
  | CommitOffsetsOk =>
    simp only [handleExt, Msg.into_resp, hpl, Option.some.injEq, Prod.mk.injEq] at h
    obtain ⟨rfl, rfl⟩ := h
    exact ⟨hseen, hpend⟩
  | ListCommittedOffsetsOk offsets =>
    simp only [handleExt, Msg.into_resp, hpl, Option.some.injEq, Prod.mk.injEq] at h
    obtain ⟨rfl, rfl⟩ := h
    exact ⟨hseen, hpend⟩
  | AddOk =>
    simp only [handleExt, Msg.into_resp, hpl, Option.some.injEq, Prod.mk.injEq] at h
    obtain ⟨rfl, rfl⟩ := h
    exact ⟨hseen, hpend⟩


theorem gossipTick_subsets (hosts : List String) (s : NodeState)
    (hseen : SeenSub s) (hpend : PendSub s) (s' : NodeState) (outs : List Msg)
    (h : gossipTick s hosts = some (s', outs)) : SeenSub s' ∧ PendSub s' := by
  induction hosts generalizing s outs with
  | nil =>
    simp only [gossipTick, Option.some.injEq, Prod.mk.injEq] at h
    obtain ⟨rfl, rfl⟩ := h
    exact ⟨hseen, hpend⟩
  | cons host rest ih =>
    simp only [gossipTick] at h
    cases hsn : lookupA s.seen host with
    | none => simp [hsn] at h
    | some sn =>
      simp only [hsn] at h
      by_cases hu : s.messages \ sn = ∅
      · rw [if_pos hu] at h
        exact ih s hseen hpend outs h
      · rw [if_neg hu] at h
        cases hrec : gossipTick
            { s with pending := setA s.pending s.msg_id (s.messages \ sn)
                     msg_id := s.msg_id + 1 } rest with
        | none => simp [hrec] at h
        | some pr =>
          simp only [hrec, Option.some.injEq, Prod.mk.injEq] at h
          obtain ⟨rfl, rfl⟩ := h
          have hpend1 : PendSub
              { s with pending := setA s.pending s.msg_id (s.messages \ sn)
                       msg_id := s.msg_id + 1 } := by
            intro i d hm
            rcases mem_setA hm with hold | hnew
            · exact hpend i d hold
            · rw [Prod.mk.injEq] at hnew
              rw [hnew.2]
              exact Finset.sdiff_subset
          refine ih { s with pending := setA s.pending s.msg_id (s.messages \ sn)
                             msg_id := s.msg_id + 1 } ?_ hpend1 pr.2 ?_
          · exact hseen
          · exact hrec

theorem step_subsets (s : NodeState) (e : Evt) (s' : NodeState) (outs : List Msg)
    (hseen : SeenSub s) (hpend : PendSub s)
    (h : step s e = some (s', outs)) : SeenSub s' ∧ PendSub s' := by
  cases e with
  | Ext msg => exact handleExt_subsets s msg s' outs hseen hpend h
  | Int t =>
    cases t with
    | CentralGossip => exact gossipTick_subsets _ s hseen hpend s' outs h
    | MeshGossip => exact gossipTick_subsets _ s hseen hpend s' outs h
    | GossipCntr =>
      simp only [step, gossipCntrTick, Option.some.injEq, Prod.mk.injEq] at h
      obtain ⟨rfl, rfl⟩ := h
      exact ⟨hseen, hpend⟩

theorem run_subsets (evts : List Evt) (s0 : NodeState)
    (hseen : SeenSub s0) (hpend : PendSub s0) (s : NodeState) (outs : List Msg)
    (h : run s0 evts = some (s, outs)) : SeenSub s ∧ PendSub s := by
  induction evts generalizing s0 outs with
  | nil =>
    simp only [run, Option.some.injEq, Prod.mk.injEq] at h
    obtain ⟨rfl, rfl⟩ := h
    exact ⟨hseen, hpend⟩
  | cons e rest ih =>
    simp only [run] at h
    cases hst : step s0 e with
    | none => simp [hst] at h
    | some p =>
      simp only [hst, Option.map_eq_some'] at h
      obtain ⟨q, hq, hqe⟩ := h
      rw [Prod.mk.injEq] at hqe
      obtain ⟨hq1, rfl⟩ := hqe
      subst hq1
      obtain ⟨h1, h2⟩ := step_subsets s0 e p.1 p.2 hseen hpend (by rw [hst])
      exact ih p.1 h1 h2 q.2 hq

/-- C4: in every state reachable by the dispatcher from process start
(after init and after any sequence of successfully handled events), every
entry of `seen` — the digest the node attributes to a peer — is a subset of
the node's own `messages` set. -/
theorem C4_seen_subset (evts : List Evt) (s : NodeState) (outs : List Msg)
    (h : run init0 evts = some (s, outs)) : SeenSub s :=
  (run_subsets evts init0
    (by intro p fs hm; simp [init0] at hm)
    (by intro i d hm; simp [init0] at hm) s outs h).1

/-- C4 witness: the reachable-state property evaluated after scenario 1's
two events. -/
theorem C4_witness :
    run init0 c2_events = some (c2_state, c2_outs) ∧ SeenSub c2_state :=
  ⟨by decide, C4_seen_subset c2_events c2_state c2_outs (by decide)⟩


/-! ### C5 -/

theorem gossipTick_cntr_frame (hosts : List String) (s : NodeState)
    (s' : NodeState) (outs : List Msg)
    (h : gossipTick s hosts = some (s', outs)) :
    s'.cntrs = s.cntrs ∧ s'.cntr = s.cntr := by
  induction hosts generalizing s outs with
  | nil =>
    simp only [gossipTick, Option.some.injEq, Prod.mk.injEq] at h
    obtain ⟨rfl, rfl⟩ := h
    exact ⟨rfl, rfl⟩
  | cons host rest ih =>
    simp only [gossipTick] at h
    cases hsn : lookupA s.seen host with
    | none => simp [hsn] at h
    | some sn =>
      simp only [hsn] at h
      by_cases hu : s.messages \ sn = ∅
      · rw [if_pos hu] at h
        exact ih s outs h
      · rw [if_neg hu] at h
        cases hrec : gossipTick
            { s with pending := setA s.pending s.msg_id (s.messages \ sn)
                     msg_id := s.msg_id + 1 } rest with
        | none => simp [hrec] at h
        | some pr =>
          simp only [hrec, Option.some.injEq, Prod.mk.injEq] at h
          obtain ⟨rfl, rfl⟩ := h
          exact ih { s with pending := setA s.pending s.msg_id (s.messages \ sn)
                            msg_id := s.msg_id + 1 } pr.2 hrec

theorem handleExt_readValue (s : NodeState) (msg : Msg) (s' : NodeState)
    (outs : List Msg) (h : handleExt s msg = some (s', outs))
    (hni : ∀ nid nids, msg.body.pl ≠ Pl.Init nid nids)
    (hgc : ∀ v, msg.body.pl = Pl.GossipCntr v →
      (lookupA s.cntrs msg.src).getD 0 ≤ v) :
    readValue s ≤ readValue s' := by
  cases hpl : msg.body.pl with
  | Init nid nids => exact absurd hpl (hni nid nids)
  | GossipCntr v =>
    simp only [handleExt, Msg.into_resp, hpl, Option.some.injEq, Prod.mk.injEq] at h
    obtain ⟨rfl, rfl⟩ := h
    have hv := hgc v hpl
    have hsum := sumValues_setA s.cntrs msg.src v
    show sumValues s.cntrs + s.cntr ≤ sumValues (setA s.cntrs msg.src v) + s.cntr
    omega
  | Add delta =>
    simp only [handleExt, Msg.into_resp, hpl, Option.some.injEq, Prod.mk.injEq] at h
    obtain ⟨rfl, rfl⟩ := h
    show sumValues s.cntrs + s.cntr ≤ sumValues s.cntrs + (s.cntr + delta)
    omega
  | Txn txn =>
    simp only [handleExt, Msg.into_resp, hpl, handleTxn] at h
    cases hpo : procOps s.snapshot (s.txn_id + 1) txn with
    | none => simp [hpo] at h
    | some pr =>
      simp only [hpo, Option.some.injEq, Prod.mk.injEq] at h
      obtain ⟨rfl, rfl⟩ := h
      exact le_rfl
  | TxnOk txn =>
    simp only [handleExt, Msg.into_resp, hpl, Option.some.injEq, Prod.mk.injEq] at h
    obtain ⟨rfl, rfl⟩ := h
    exact le_rfl
  | Error code text =>
    simp only [handleExt, Msg.into_resp, hpl, Option.some.injEq, Prod.mk.injEq] at h
    obtain ⟨rfl, rfl⟩ := h
    exact le_rfl
  | FwdW writes =>
    simp only [handleExt, Msg.into_resp, hpl, Option.some.injEq, Prod.mk.injEq] at h
    obtain ⟨rfl, rfl⟩ := h
    exact le_rfl
  | Echo e =>
    simp only [handleExt, Msg.into_resp, hpl, Option.some.injEq, Prod.mk.injEq] at h
    obtain ⟨rfl, rfl⟩ := h
    exact le_rfl
  | Generate =>
    simp only [handleExt, Msg.into_resp, hpl, Option.some.injEq, Prod.mk.injEq] at h
    obtain ⟨rfl, rfl⟩ := h
    exact le_rfl
  | Topology topology =>
    simp only [handleExt, Msg.into_resp, hpl] at h
    cases hlk : lookupA topology s.id with
    | none => simp [hlk] at h
    | some nb =>
      simp only [hlk, Option.some.injEq, Prod.mk.injEq] at h
      obtain ⟨rfl, rfl⟩ := h
      exact le_rfl
  | Broadcast m =>
    simp only [handleExt, Msg.into_resp, hpl, Option.some.injEq, Prod.mk.injEq] at h
    obtain ⟨rfl, rfl⟩ := h
    exact le_rfl
  | Gossip msgs =>
    simp only [handleExt, Msg.into_resp, hpl] at h
    cases hsn : lookupA s.seen msg.src with
    | none => simp [hsn] at h
    | some sn =>
      cases hirt : msg.body.msg_id with
      | none => simp [hsn, hirt] at h
      | some irt =>
        simp only [hsn, hirt, Option.some.injEq, Prod.mk.injEq] at h
        obtain ⟨rfl, rfl⟩ := h
        exact le_rfl
  | GossipOk gid =>
    simp only [handleExt, Msg.into_resp, hpl] at h
    cases hpd : lookupA s.pending gid with
    | none =>
      simp only [hpd, Option.some.injEq, Prod.mk.injEq] at h
      obtain ⟨rfl, rfl⟩ := h
      exact le_rfl
    | some pl =>
      cases hsn : lookupA s.seen msg.src with
      | none => simp [hpd, hsn] at h
      | some sn =>
        simp only [hpd, hsn, Option.some.injEq, Prod.mk.injEq] at h
        obtain ⟨rfl, rfl⟩ := h
        exact le_rfl
  | Read key mid =>
    simp only [handleExt, Msg.into_resp, hpl] at h
    by_cases hk : key.isSome ∨ mid.isSome
    · simp [hk] at h
    · simp only [if_neg hk, Option.some.injEq, Prod.mk.injEq] at h
      obtain ⟨rfl, rfl⟩ := h
      exact le_rfl
  | Send key m =>
    simp only [handleExt, Msg.into_resp, hpl] at h
    by_cases hld : s.id = s.leader
    · rw [if_pos hld] at h
      rw [Option.some.injEq, Prod.mk.injEq] at h
      obtain ⟨rfl, rfl⟩ := h
      exact le_rfl
    · rw [if_neg hld] at h
      rw [Option.some.injEq, Prod.mk.injEq] at h
      obtain ⟨rfl, rfl⟩ := h
      exact le_rfl
  | SendMany key msgs =>
    simp only [handleExt, Msg.into_resp, hpl] at h
    cases hlk : lookupA s.logs key with
    | none =>
      simp only [hlk, Option.some.injEq, Prod.mk.injEq] at h
      obtain ⟨rfl, rfl⟩ := h
      exact le_rfl
    | some v =>
      simp only [hlk] at h
      by_cases hlen : v.length > msgs.length
      · rw [if_pos hlen] at h
        rw [Option.some.injEq, Prod.mk.injEq] at h
        obtain ⟨rfl, rfl⟩ := h
        exact le_rfl
      · rw [if_neg hlen] at h
        rw [Option.some.injEq, Prod.mk.injEq] at h
        obtain ⟨rfl, rfl⟩ := h
        exact le_rfl
  | Poll offsets =>
    simp only [handleExt, Msg.into_resp, hpl, Option.some.injEq, Prod.mk.injEq] at h
    obtain ⟨rfl, rfl⟩ := h
    exact le_rfl
  | CommitOffsets offsets =>
    simp only [handleExt, Msg.into_resp, hpl] at h
    by_cases hld : s.id = s.leader
    · rw [if_pos hld] at h
      rw [Option.some.injEq, Prod.mk.injEq] at h
      obtain ⟨rfl, rfl⟩ := h
      exact le_rfl
    · rw [if_neg hld] at h
      rw [Option.some.injEq, Prod.mk.injEq] at h
      obtain ⟨rfl, rfl⟩ := h
      exact le_rfl
  | ListCommittedOffsets keys =>
    simp only [handleExt, Msg.into_resp, hpl, Option.some.injEq, Prod.mk.injEq] at h
    obtain ⟨rfl, rfl⟩ := h
    exact le_rfl
  | InitOk =>
    simp only [handleExt, Msg.into_resp, hpl, Option.some.injEq, Prod.mk.injEq] at h
    obtain ⟨rfl, rfl⟩ := h
    exact le_rfl
  | EchoOk e =>
    simp only [handleExt, Msg.into_resp, hpl, Option.some.injEq, Prod.mk.injEq] at h
    obtain ⟨rfl, rfl⟩ := h
    exact le_rfl
  | GenerateOk i =>
    simp only [handleExt, Msg.into_resp, hpl, Option.some.injEq, Prod.mk.injEq] at h
    obtain ⟨rfl, rfl⟩ := h
    exact le_rfl
  | BroadcastOk =>
    simp only [handleExt, Msg.into_resp, hpl, Option.some.injEq, Prod.mk.injEq] at h
    obtain ⟨rfl, rfl⟩ := h
    exact le_rfl
  | ReadOk ms v =>
    simp only [handleExt, Msg.into_resp, hpl, Option.some.injEq, Prod.mk.injEq] at h
    obtain ⟨rfl, rfl⟩ := h
    exact le_rfl
  | TopologyOk =>
    simp only [handleExt, Msg.into_resp, hpl, Option.some.injEq, Prod.mk.injEq] at h
    obtain ⟨rfl, rfl⟩ := h
    exact le_rfl
  | SendOk o =>
    simp only [handleExt, Msg.into_resp, hpl, Option.some.injEq, Prod.mk.injEq] at h
    obtain ⟨rfl, rfl⟩ := h
    exact le_rfl
  | PollOk ms =>
    simp only [handleExt, Msg.into_resp, hpl, Option.some.injEq, Prod.mk.injEq] at h
    obtain ⟨rfl, rfl⟩ := h
    exact le_rfl
  | CommitOffsetsOk =>
    simp only [handleExt, Msg.into_resp, hpl, Option.some.injEq, Prod.mk.injEq] at h
    obtain ⟨rfl, rfl⟩ := h
    exact le_rfl
  | ListCommittedOffsetsOk offsets =>
    simp only [handleExt, Msg.into_resp, hpl, Option.some.injEq, Prod.mk.injEq] at h
    obtain ⟨rfl, rfl⟩ := h
    exact le_rfl
  | AddOk =>
    simp only [handleExt, Msg.into_resp, hpl, Option.some.injEq, Prod.mk.injEq] at h
    obtain ⟨rfl, rfl⟩ := h
    exact le_rfl

/-- C5 counterexample: with `cntrs[n1] = 5` (after peer `n1` gossiped 5), a
single dispatcher step handling `gossip_cntr {cntr := 3}` from `n1` drops
the `read` value from 5 to 3 — the handler assigns rather than maxes, so a
stale gossip decreases the value returned by `read`. -/
theorem C5_counterexample :
    ((run init0 c5_events).map fun p => readValue p.1) = some 5 ∧
    ((run init0 (c5_events ++ [Evt.Ext (gcntr_msg "n1" 2 3)])).map
        fun p => readValue p.1) = some 3 ∧
    ¬ (5 : Nat) ≤ 3 :=
  ⟨by decide, by decide, by decide⟩

/-- C5 as amended: the `read` value `cntr + Σ cntrs[p]` is non-decreasing
under every dispatcher step except re-initialisation (which the spec rules
out) and a `gossip_cntr` carrying a value smaller than the one currently
stored for its sender — the handler assigns `cntrs[sender] = cntr`, so
monotonicity holds exactly when gossiped values from each peer arrive
non-decreasing (as they are sent, absent reordering). -/
theorem C5_amended_monotone (s : NodeState) (e : Evt) (s' : NodeState)
    (outs : List Msg) (hstep : step s e = some (s', outs))
    (hni : ∀ msg nid nids, e = Evt.Ext msg → msg.body.pl ≠ Pl.Init nid nids)
    (hgc : ∀ msg v, e = Evt.Ext msg → msg.body.pl = Pl.GossipCntr v →
      (lookupA s.cntrs msg.src).getD 0 ≤ v) :
    readValue s ≤ readValue s' := by
  cases e with
  | Ext msg =>
    exact handleExt_readValue s msg s' outs hstep
      (fun nid nids => hni msg nid nids rfl) (fun v hv => hgc msg v rfl hv)
  | Int t =>
    cases t with
    | CentralGossip =>
      obtain ⟨h1, h2⟩ := gossipTick_cntr_frame s.central_neighbourhood s s' outs hstep
      unfold readValue
      rw [h1, h2]
    | MeshGossip =>
      obtain ⟨h1, h2⟩ := gossipTick_cntr_frame s.mesh_neighbourhood s s' outs hstep
      unfold readValue
      rw [h1, h2]
    | GossipCntr =>
      simp only [step, gossipCntrTick, Option.some.injEq, Prod.mk.injEq] at hstep
      obtain ⟨rfl, rfl⟩ := hstep
      exact le_rfl

/-- C5 witness: the amended property evaluated on a two-node state with
`cntr = 1`, `cntrs[n1] = 2`, receiving `gossip_cntr {cntr := 7}` from `n1`
(7 ≥ 2). -/
theorem C5_witness :
    step c5w_s (Evt.Ext (gcntr_msg "n1" 2 7)) = some (c5w_s2, []) ∧
    readValue c5w_s ≤ readValue c5w_s2 :=
  ⟨by decide,
   C5_amended_monotone c5w_s (Evt.Ext (gcntr_msg "n1" 2 7)) c5w_s2 [] (by decide)
     (by
       intro m nid nids he
       cases he
       exact fun hx => Pl.noConfusion hx)
     (by
       intro m v he hv
       cases he
       injection hv with hveq
       subst hveq
       decide)⟩


/-! ### C8 -/

theorem gossipTick_char (hosts : List String) (s : NodeState)
    (hseen : ∀ h ∈ hosts, (lookupA s.seen h).isSome) :
    ∃ s' outs, gossipTick s hosts = some (s', outs) ∧
      s'.messages = s.messages ∧
      s'.seen = s.seen ∧
      s.msg_id ≤ s'.msg_id ∧
      (∀ j d, (j, d) ∈ s.pending → j < s.msg_id → (j, d) ∈ s'.pending) ∧
      (∀ m ∈ outs, m.src = s.id ∧ m.dst ∈ hosts ∧ digest s m.dst ≠ ∅ ∧
        m.body.pl = Pl.Gossip (digest s m.dst) ∧
        ∃ i, m.body.msg_id = some i ∧ s.msg_id ≤ i ∧ i < s'.msg_id ∧
          (i, digest s m.dst) ∈ s'.pending) ∧
      (∀ p ∈ hosts, digest s p ≠ ∅ → ∃ m ∈ outs, m.dst = p) ∧
      (∀ e ∈ s'.pending, e ∈ s.pending ∨
        ∃ m ∈ outs, m.body.msg_id = some e.1 ∧ e.2 = digest s m.dst) := by
  induction hosts generalizing s with
  | nil =>
    refine ⟨s, [], rfl, rfl, rfl, le_rfl, fun j d hm _ => hm, ?_, ?_, ?_⟩
    · intro m hm
      simp at hm
    · intro p hp
      simp at hp
    · intro e he
      exact Or.inl he
  | cons host rest ih =>
    obtain ⟨sn, hsn⟩ := Option.isSome_iff_exists.1 (hseen host (List.mem_cons_self host rest))
    have hd : digest s host = s.messages \ sn := by
      rw [digest, hsn]
      rfl
    by_cases hu : s.messages \ sn = ∅
    · obtain ⟨s', outs, htick, hmsg, hsns, hmid, hkeep, houts, hp, hpd⟩ :=
        ih s (fun h hh => hseen h (List.mem_cons_of_mem _ hh))
      refine ⟨s', outs, ?_, hmsg, hsns, hmid, hkeep, ?_, ?_, hpd⟩
      · simp only [gossipTick, hsn, hu, if_true]
        exact htick
      · intro m hm
        obtain ⟨h1, h2, h3, h4, h5⟩ := houts m hm
        exact ⟨h1, List.mem_cons_of_mem _ h2, h3, h4, h5⟩
      · intro p hpm hne
        rcases List.mem_cons.1 hpm with rfl | hpr
        · rw [hd] at hne
          exact absurd hu hne.elim
        · exact hp p hpr hne
    · have hseen1 : ∀ h ∈ rest,
          (lookupA ({ s with pending := setA s.pending s.msg_id (s.messages \ sn)
                             msg_id := s.msg_id + 1 } : NodeState).seen h).isSome :=
        fun h hh => hseen h (List.mem_cons_of_mem _ hh)
      obtain ⟨s', outs, htick, hmsg, hsns, hmid, hkeep, houts, hp, hpd⟩ :=
        ih { s with pending := setA s.pending s.msg_id (s.messages \ sn)
                    msg_id := s.msg_id + 1 } hseen1
      have hmid0 : s.msg_id + 1 ≤ s'.msg_id := hmid
      refine ⟨s',
        { src := s.id, dst := host,
          body := { pl := Pl.Gossip (s.messages \ sn), msg_id := some s.msg_id,
                    in_reply_to := none } } :: outs, ?_, hmsg, hsns, ?_, ?_, ?_, ?_, ?_⟩
      · simp only [gossipTick, hsn, hu, if_false, htick]
      · exact le_trans (Nat.le_succ _) hmid0
      · intro j d hm hj
        have hne : j ≠ s.msg_id := Nat.ne_of_lt hj
        have h1 : (j, d) ∈ setA s.pending s.msg_id (s.messages \ sn) :=
          mem_setA_of_ne hm hne
        exact hkeep j d h1 (Nat.lt_trans hj (Nat.lt_succ_self _))
      · intro m hm
        rcases List.mem_cons.1 hm with rfl | hmr
        · refine ⟨rfl, List.mem_cons_self _ _, ?_, ?_, s.msg_id, rfl, le_rfl,
            Nat.lt_of_lt_of_le (Nat.lt_succ_self _) hmid0, ?_⟩
          · show digest s host ≠ ∅
            rw [hd]
            exact hu
          · show Pl.Gossip (s.messages \ sn) = Pl.Gossip (digest s host)
            rw [hd]
          · show (s.msg_id, digest s host) ∈ s'.pending
            rw [hd]
            exact hkeep s.msg_id (s.messages \ sn)
              (mem_setA_self s.pending s.msg_id (s.messages \ sn))
              (Nat.lt_succ_self _)
        · obtain ⟨h1, h2, h3, h4, i, h5, h6, h7, h8⟩ := houts m hmr
          exact ⟨h1, List.mem_cons_of_mem _ h2, h3, h4, i, h5,
            le_trans (Nat.le_succ _) h6, h7, h8⟩
      · intro p hpm hne
        rcases List.mem_cons.1 hpm with rfl | hpr
        · exact ⟨_, List.mem_cons_self _ _, rfl⟩
        · obtain ⟨m, hm, hmd⟩ := hp p hpr hne
          exact ⟨m, List.mem_cons_of_mem _ hm, hmd⟩
      · intro e he
        rcases hpd e he with h1 | h2
        · rcases mem_setA h1 with hold | hnew
          · exact Or.inl hold
          · refine Or.inr ⟨_, List.mem_cons_self _ _, ?_, ?_⟩
            · show some s.msg_id = some e.1
              rw [hnew]
            · show e.2 = digest s host
              rw [hnew, hd]
        · obtain ⟨m, hm, hm1, hm2⟩ := h2
          exact Or.inr ⟨m, List.mem_cons_of_mem _ hm, hm1, hm2⟩

/-- C8: on a gossip tick (central or mesh), for every neighbour `p` the
node computes `digest = messages \ seen[p]`; a `gossip` message to `p`
(carrying exactly that digest) is sent if and only if the digest is
non-empty, each sent message gets a fresh `msg_id` from the monotone
counter and its digest is recorded in `pending` under that id; `messages`
and `seen` are unchanged, previously pending entries survive, and no
`pending` entry is added other than those of the sent messages — in
particular nothing is sent and `pending` is unchanged for a neighbour
whose digest is empty. -/
theorem C8_gossip_digest (s : NodeState) (tk : Task) (hosts : List String)
    (htk : (tk = Task.CentralGossip ∧ hosts = s.central_neighbourhood) ∨
           (tk = Task.MeshGossip ∧ hosts = s.mesh_neighbourhood))
    (hseen : ∀ h ∈ hosts, (lookupA s.seen h).isSome) :
    ∃ s' outs, step s (Evt.Int tk) = some (s', outs) ∧
      s'.messages = s.messages ∧
      s'.seen = s.seen ∧
      s.msg_id ≤ s'.msg_id ∧
      (∀ j d, (j, d) ∈ s.pending → j < s.msg_id → (j, d) ∈ s'.pending) ∧
      (∀ m ∈ outs, m.src = s.id ∧ m.dst ∈ hosts ∧ digest s m.dst ≠ ∅ ∧
        m.body.pl = Pl.Gossip (digest s m.dst) ∧
        ∃ i, m.body.msg_id = some i ∧ s.msg_id ≤ i ∧ i < s'.msg_id ∧
          (i, digest s m.dst) ∈ s'.pending) ∧
      (∀ p ∈ hosts, digest s p ≠ ∅ → ∃ m ∈ outs, m.dst = p) ∧
      (∀ e ∈ s'.pending, e ∈ s.pending ∨
        ∃ m ∈ outs, m.body.msg_id = some e.1 ∧ e.2 = digest s m.dst) := by
  rcases htk with ⟨rfl, rfl⟩ | ⟨rfl, rfl⟩
  · exact gossipTick_char s.central_neighbourhood s hseen
  · exact gossipTick_char s.mesh_neighbourhood s hseen

/-- C8 witness: the property evaluated on a two-node state whose message
set is `{7}` and whose peer digest for `n1` is empty-known (so the digest
`{7}` is non-empty and one gossip is sent). -/
theorem C8_witness :
    (∀ h ∈ c8w_s.central_neighbourhood, (lookupA c8w_s.seen h).isSome) ∧
    (∃ s' outs, step c8w_s (Evt.Int Task.CentralGossip) = some (s', outs) ∧
      s'.messages = c8w_s.messages ∧
      s'.seen = c8w_s.seen ∧
      c8w_s.msg_id ≤ s'.msg_id ∧
      (∀ j d, (j, d) ∈ c8w_s.pending → j < c8w_s.msg_id → (j, d) ∈ s'.pending) ∧
      (∀ m ∈ outs, m.src = c8w_s.id ∧ m.dst ∈ c8w_s.central_neighbourhood ∧
        digest c8w_s m.dst ≠ ∅ ∧
        m.body.pl = Pl.Gossip (digest c8w_s m.dst) ∧
        ∃ i, m.body.msg_id = some i ∧ c8w_s.msg_id ≤ i ∧ i < s'.msg_id ∧
          (i, digest c8w_s m.dst) ∈ s'.pending) ∧
      (∀ p ∈ c8w_s.central_neighbourhood, digest c8w_s p ≠ ∅ →
        ∃ m ∈ outs, m.dst = p) ∧
      (∀ e ∈ s'.pending, e ∈ c8w_s.pending ∨
        ∃ m ∈ outs, m.body.msg_id = some e.1 ∧ e.2 = digest c8w_s m.dst)) :=
  ⟨by decide,
   C8_gossip_digest c8w_s Task.CentralGossip c8w_s.central_neighbourhood
     (Or.inl ⟨rfl, rfl⟩) (by decide)⟩

end GossipGlomers
